import Mathlib

/-!
Verification of the order & coupon reconciliation subsystem of the
`crystal` store bot.

The embedding follows the JavaScript sources:
* `utils/coupons.js` — coupon ledger (`findCoupon`, `addCoupon`,
  `deleteCoupon`, `incrementCouponUse`) and the pricing engine
  (`applyCouponToAmount`);
* `utils/pendingCoupons.js` — per-channel pending-coupon association;
* the main bot file — the `choose_prod` button handler, the coupon modal
  handler and the two payment webhooks (`/webhook/cryptomus`,
  `/webhook/stripe`);
* `utils/crypto.js` — `isCryptomusWebhookTrusted`.

JavaScript numbers are modelled as `ℚ` (the spec fixes the rounding rule to
round-half-away-from-zero at 2 decimals, which is exact on `ℚ`); the
durable JSON files become explicit state values threaded through the
operations.  `utils/store.js` is not part of the sources; its three
operations used by the webhook handlers are modelled from the spec (§4.4,
§6) and carry a `Modelled from the spec:` doc comment.
-/

namespace Crystal

/-! ### JavaScript string/number primitives

Computable versions of `toUpperCase`, `toLowerCase`, `trim`, `Math.max`
and `Math.min` (restricted to the ASCII case mapping, which is all the
sources feed them).  They are written by structural recursion over the
character list so that concrete computations reduce inside the kernel. -/

/-- `String.prototype.toUpperCase` (ASCII case mapping). -/
def jsToUpper (s : String) : String := String.mk (s.data.map Char.toUpper)

/-- `String.prototype.toLowerCase` (ASCII case mapping). -/
def jsToLower (s : String) : String := String.mk (s.data.map Char.toLower)

/-- `String.prototype.trim`: strip leading and trailing whitespace. -/
def jsTrim (s : String) : String :=
  String.mk (((s.data.dropWhile Char.isWhitespace).reverse.dropWhile
    Char.isWhitespace).reverse)

/-- `Math.max` on two numbers. -/
def jsMax (a b : ℚ) : ℚ := if a ≤ b then b else a

/-- `Math.min` on two numbers. -/
def jsMin (a b : ℚ) : ℚ := if a ≤ b then a else b

/-- A ledger coupon, as written by `addCoupon` in `utils/coupons.js`.
`createdAt` is an opaque timestamp string (the wall clock is passed in as an
argument where the source calls `new Date().toISOString()`). -/
structure Coupon where
  code : String
  type : String
  value : ℚ
  uses : Nat
  maxUses : Nat
  active : Bool
  createdAt : String
deriving DecidableEq

/-- The regular expression `^[A-Z0-9_-]{2,32}$` from `addCoupon`. -/
def validCouponCode (s : String) : Bool :=
  2 ≤ s.length && s.length ≤ 32 &&
    s.toList.all fun ch =>
      ('A' ≤ ch && ch ≤ 'Z') || ('0' ≤ ch && ch ≤ '9') || ch = '_' || ch = '-'

/-- `findCoupon(code)` from `utils/coupons.js`: case-insensitive lookup that
returns nothing for a falsy code, a missing code, an inactive coupon, or a
usage-exhausted coupon. -/
def findCoupon (arr : List Coupon) (code : String) : Option Coupon :=
  if code = "" then none
  else
    match arr.find? (fun x => jsToLower x.code == jsToLower code) with
    | none => none
    | some c =>
      if c.active = false then none
      else if 0 < c.maxUses ∧ c.maxUses ≤ c.uses then none
      else some c

/-- `addCoupon({code, type, value, maxUses})` from `utils/coupons.js`.
Validation failures are the thrown `Error`s of the source, in source order;
on success the new coupon is appended to the ledger.  The `maxUses` argument
is an integer (the spec's data model; `Number.isFinite` is automatic). -/
def addCoupon (arr : List Coupon) (code type : String) (value : ℚ)
    (maxUses : Int) (now : String) : Except String (Coupon × List Coupon) :=
  if code = "" then .error "Missing code"
  else
    let norm := jsToUpper (jsTrim code)
    if validCouponCode norm = false then
      .error "Code must be 2-32 chars (A-Z, 0-9, _ or -)"
    else if type ≠ "fixed" ∧ type ≠ "percent" then
      .error "Type must be fixed or percent"
    else if value ≤ 0 then .error "Value must be > 0"
    else if type = "percent" ∧ 100 < value then .error "Percent cannot exceed 100"
    else if maxUses < 0 then .error "maxUses must be >= 0 (0 = unlimited)"
    else if arr.any (fun x => jsToUpper x.code == norm) then
      .error "Coupon already exists"
    else
      let c : Coupon :=
        { code := norm, type := type, value := value, uses := 0,
          maxUses := maxUses.toNat, active := true, createdAt := now }
      .ok (c, arr ++ [c])

/-- `deleteCoupon(code)` from `utils/coupons.js`: drops every coupon whose
upper-cased code matches, and reports whether anything was removed. -/
def deleteCoupon (arr : List Coupon) (code : String) : Bool × List Coupon :=
  let norm := jsToUpper (jsTrim code)
  let next := arr.filter (fun x => ¬ (jsToUpper x.code = norm))
  (next.length ≠ arr.length, next)

/-- `incrementCouponUse(code)` from `utils/coupons.js`: finds the first
coupon whose upper-cased code matches, re-validates usability, and bumps its
use counter in place.  (`findIdx?` always returns an in-range index, so the
`none` branch of the lookup is unreachable.) -/
def incrementCouponUse (arr : List Coupon) (code : String) : Bool × List Coupon :=
  let norm := jsToUpper (jsTrim code)
  match arr.findIdx? (fun x => jsToUpper x.code == norm) with
  | none => (false, arr)
  | some idx =>
    match arr[idx]? with
    | none => (false, arr)
    | some c =>
      if c.active = false then (false, arr)
      else if 0 < c.maxUses ∧ c.maxUses ≤ c.uses then (false, arr)
      else (true, arr.set idx { c with uses := c.uses + 1 })

/-- `listCoupons()` from `utils/coupons.js`. -/
def listCoupons (arr : List Coupon) : List Coupon := arr

/-! ### Pricing engine (`applyCouponToAmount`) -/

/-- Round half away from zero to an integer (the rounding used by
`Number.prototype.toFixed` on the mathematical value, and the rule the
spec states for monetary outputs). -/
def roundHalfAway (q : ℚ) : Int :=
  if 0 ≤ q then ⌊q + 1/2⌋ else -⌊-q + 1/2⌋

/-- `Number(x.toFixed(2))`: round to 2 decimal places, half away from zero. -/
def round2 (q : ℚ) : ℚ := (roundHalfAway (q * 100) : ℚ) / 100

/-- Left-pad a 2-digit cents value, for `toFixed(2)` string output. -/
def pad2 (n : Nat) : String := if n < 10 then "0" ++ toString n else toString n

/-- The string `x.toFixed(2)` for a rational `x`. -/
def toFixed2 (q : ℚ) : String :=
  let n := roundHalfAway (q * 100)
  (if n < 0 then "-" else "") ++ toString (n.natAbs / 100) ++ "." ++ pad2 (n.natAbs % 100)

/-- Result record of `applyCouponToAmount`. -/
structure PriceResult where
  total : ℚ
  discount : ℚ
  label : Option String
deriving DecidableEq

/-- `applyCouponToAmount(amountUsd, coupon)` from `utils/coupons.js`.
The percent label prints the clamped percentage with Lean's rational
notation where JavaScript prints a decimal numeral; no claim inspects it. -/
def applyCouponToAmount (amountUsd : ℚ) (coupon : Option Coupon) : PriceResult :=
  match coupon with
  | none => { total := amountUsd, discount := 0, label := none }
  | some c =>
    if c.type = "fixed" then
      let discount := jsMax 0 (jsMin amountUsd c.value)
      { total := round2 (amountUsd - discount), discount := round2 discount,
        label := some (c.code ++ " (-$" ++ toFixed2 discount ++ ")") }
    else if c.type = "percent" then
      let pct := jsMax 0 (jsMin 100 c.value)
      let discount := amountUsd * (pct / 100)
      { total := round2 (amountUsd - discount), discount := round2 discount,
        label := some (c.code ++ " (-" ++ toString pct ++ "%)") }
    else { total := amountUsd, discount := 0, label := none }

/-! ### Pending-coupon association (`utils/pendingCoupons.js`) -/

/-- The snapshot stored by the coupon modal handler:
`{ code, type, value, maxUses }`. -/
structure PendingCoupon where
  code : String
  type : String
  value : ℚ
  maxUses : Nat
deriving DecidableEq

/-- The JSON object persisted in `data/pending_coupons.json`, keyed by
channel id. -/
def PendingMap : Type := String → Option PendingCoupon

/-- `setPendingCoupon(channelId, coupon)`: `obj[channelId] = coupon`. -/
def setPendingCoupon (m : PendingMap) (channelId : String) (p : PendingCoupon) :
    PendingMap :=
  fun k => if k = channelId then some p else m k

/-- `getPendingCoupon(channelId)`: `obj[channelId] || null` (stored values
are objects, hence truthy). -/
def getPendingCoupon (m : PendingMap) (channelId : String) : Option PendingCoupon :=
  m channelId

/-- `clearPendingCoupon(channelId)`: deletes the entry when present; when
absent the map is already in the resulting shape. -/
def clearPendingCoupon (m : PendingMap) (channelId : String) : PendingMap :=
  fun k => if k = channelId then none else m k

/-! ### Orders -/

/-- The `product: {id, name, price}` snapshot stored on an order. -/
structure ProductSnap where
  id : String
  name : String
  price : ℚ
deriving DecidableEq

/-- The coupon snapshot stored on an order's pricing:
`{ code, type, value, maxUses, uses }`. -/
structure OrderCoupon where
  code : String
  type : String
  value : ℚ
  maxUses : Nat
  uses : Nat
deriving DecidableEq

/-- `order.pricing`. -/
structure Pricing where
  original : ℚ
  discount : ℚ
  total : ℚ
  coupon : Option OrderCoupon
  couponUsedMarked : Bool
deriving DecidableEq

/-- `order.payment`; `null` fields are `none`. -/
structure Payment where
  method : Option String
  provider : Option String
  url : Option String
  transactionId : Option String
  paidAmount : Option String
deriving DecidableEq

/-- An order record as built by the `choose_prod` handler. -/
structure Order where
  id : String
  status : String
  createdAt : String
  guildId : String
  channelId : String
  userId : String
  userTag : String
  product : ProductSnap
  payment : Payment
  pricing : Pricing
deriving DecidableEq

/-- The two durable stores touched by the webhook handlers. -/
structure SysState where
  orders : List Order
  coupons : List Coupon
deriving DecidableEq

/-- Modelled from the spec: `upsertOrder` from `utils/store.js`, which is
not under `src/`.  Per §6 the Orders collection is a durable map keyed by
`id`; upsert replaces the record with the same id or inserts a new one. -/
def upsertOrder (orders : List Order) (o : Order) : List Order :=
  if orders.any (fun x => x.id == o.id) then
    orders.map (fun x => if x.id = o.id then o else x)
  else orders ++ [o]

/-- Modelled from the spec: `getOrderById` from `utils/store.js`, which is
not under `src/`: lookup in the Orders map by id. -/
def getOrderById (orders : List Order) (oid : String) : Option Order :=
  orders.find? (fun x => x.id == oid)

/-- The payment fields written on confirmation. -/
structure PayPatch where
  method : String
  provider : String
  transactionId : Option String
  paidAmount : Option String
deriving DecidableEq

/-- Modelled from the spec: `markPaid` from `utils/store.js`, which is not
under `src/`.  Per §4.4 `confirmPayment`: returns nothing (and mutates
nothing) when the order is unknown; returns the existing order unchanged
when its status is already `paid`; otherwise sets `status = paid`, fills
`payment.method/provider/transactionId/paidAmount`, persists the updated
order and returns it.  (The coupon-usage step of §4.4 is performed by the
webhook handlers themselves in the source.) -/
def markPaid (orders : List Order) (oid : String) (patch : PayPatch) :
    Option Order × List Order :=
  match getOrderById orders oid with
  | none => (none, orders)
  | some o =>
    if o.status = "paid" then (some o, orders)
    else
      let o1 : Order :=
        { o with
          status := "paid",
          payment :=
            { o.payment with
              method := some patch.method, provider := some patch.provider,
              transactionId := patch.transactionId,
              paidAmount := patch.paidAmount } }
      (some o1, upsertOrder orders o1)

/-! ### Webhook handlers (main bot file) -/

/-- An HTTP response `res.status(s).send(b)`. -/
structure WebResp where
  status : Nat
  body : String
deriving DecidableEq

/-- `order?.pricing?.coupon?.code` with JavaScript falsiness: the empty
string stands for a missing coupon or a missing code. -/
def couponCodeOf (o : Order) : String :=
  match o.pricing.coupon with
  | some c => c.code
  | none => ""

/-- `x || y || ... || null` over strings: first truthy (non-empty) value. -/
def firstTruthy (l : List String) : Option String := l.find? (fun s => s ≠ "")

/-- The block shared verbatim by both webhook handlers: `markPaid`, then
"Mark coupon usage ONCE after successful payment", then `notifyPaid`.
Returns the updated stores and whether `notifyPaid` was invoked. -/
def confirmPaid (st : SysState) (oid : String) (patch : PayPatch) :
    SysState × Bool :=
  match markPaid st.orders oid patch with
  | (none, orders1) => ({ st with orders := orders1 }, false)
  | (some o, orders1) =>
    if couponCodeOf o ≠ "" ∧ o.pricing.couponUsedMarked = false then
      let coupons1 := (incrementCouponUse st.coupons (couponCodeOf o)).2
      let o1 := { o with pricing := { o.pricing with couponUsedMarked := true } }
      ({ orders := upsertOrder orders1 o1, coupons := coupons1 }, true)
    else ({ st with orders := orders1 }, true)

/-- The Cryptomus webhook payload; absent fields are the empty string
(JavaScript falsiness). -/
structure CryptoPayload where
  order_id : String
  status : String
  uuid : String
  txid : String
  payment_uuid : String
  amount : String
  sign : String
deriving DecidableEq

/-- The `paidStatuses` set of the Cryptomus handler. -/
def paidStatuses : List String := ["paid", "paid_over", "paid_partial"]

/-- The payment patch the Cryptomus handler passes to `markPaid`. -/
def cryptoPatch (p : CryptoPayload) : PayPatch :=
  { method := "crypto", provider := "cryptomus",
    transactionId := firstTruthy [p.uuid, p.txid, p.payment_uuid],
    paidAmount := if p.amount = "" then none else some p.amount }

/-- `app.post("/webhook/cryptomus")`.  The authenticity check is the
`trust` parameter (`isCryptomusWebhookTrusted` below); the handler body is
total here, so the source's surrounding `try/catch` has nothing to catch.
Returns the response, the updated stores, and whether `notifyPaid` ran. -/
def cryptomusHandler (trust : CryptoPayload → Bool) (p : CryptoPayload)
    (st : SysState) : WebResp × SysState × Bool :=
  if trust p = false then (⟨401, "untrusted"⟩, st, false)
  else if p.order_id = "" then (⟨200, "no order"⟩, st, false)
  else if paidStatuses.contains (jsToLower p.status) = false then
    (⟨200, "not paid"⟩, st, false)
  else
    let r := confirmPaid st p.order_id (cryptoPatch p)
    (⟨200, "ok"⟩, r.1, r.2)

/-- A parsed Stripe `checkout.session.completed` session object. -/
structure StripeSession where
  orderId : String
  payment_intent : String
  id : String
  amount_total : Option Int
deriving DecidableEq

/-- A parsed Stripe event. -/
structure StripeEvent where
  type : String
  session : StripeSession
deriving DecidableEq

/-- `$${(amount_total / 100).toFixed(2)}` for integer cents. -/
def formatUsd (cents : Int) : String :=
  "$" ++ (if cents < 0 then "-" else "") ++ toString (cents.natAbs / 100)
    ++ "." ++ pad2 (cents.natAbs % 100)

/-- The payment patch the Stripe handler passes to `markPaid`
(`session?.amount_total ? ... : null`: zero cents is falsy). -/
def stripePatch (s : StripeSession) : PayPatch :=
  { method := "stripe", provider := "stripe",
    transactionId := firstTruthy [s.payment_intent, s.id],
    paidAmount :=
      match s.amount_total with
      | some n => if n ≠ 0 then some (formatUsd n) else none
      | none => none }

/-- `app.post("/webhook/stripe")`.  The fallible step inside the source's
`try` — `stripe.webhooks.constructEvent` (which throws on a bad signature)
or `JSON.parse` — is the `Except`-valued `event` argument; the `catch`
block answers `200 ok`. -/
def stripeHandler (event : Except String StripeEvent) (st : SysState) :
    WebResp × SysState × Bool :=
  match event with
  | .error _ => (⟨200, "ok"⟩, st, false)
  | .ok ev =>
    if ev.type = "checkout.session.completed" ∧ ev.session.orderId ≠ "" then
      let r := confirmPaid st ev.session.orderId (stripePatch ev.session)
      (⟨200, "ok"⟩, r.1, r.2)
    else (⟨200, "ok"⟩, st, false)

/-- `isCryptomusWebhookTrusted(req, env)` from `utils/crypto.js`.  The
`md5(base64(JSON(payload without sign)) + apiKey)` computation is the
abstract `digest` parameter (cryptographic hash and JSON serialization are
external); `apiKey` is `env.CRYPTOMUS_API_KEY` (`none` = unset), and a
missing `sign` field is the empty string. -/
def isCryptomusWebhookTrusted (digest : CryptoPayload → String → String)
    (apiKey : Option String) (p : CryptoPayload) : Bool :=
  match apiKey with
  | none => true
  | some k =>
    if k = "" then true
    else if p.sign = "" then false
    else digest p k == p.sign

/-! ### Order creation (`choose_prod` button handler) -/

/-- The `choose_prod:` button handler of the main bot file, restricted to
its order/coupon logic: builds the pending order, applies (and clears) the
channel's pending coupon when its code resolves via `findCoupon`, clears a
non-resolving pending entry, and persists the order via `upsertOrder`.
`orderId` is the fresh `uuid()`, `now` the wall clock. -/
def chooseProd (orderId now guildId channelId userId userTag : String)
    (prod : ProductSnap) (pending : PendingMap) (ledger : List Coupon)
    (orders : List Order) : Order × PendingMap × List Order :=
  let order0 : Order :=
    { id := orderId, status := "pending", createdAt := now,
      guildId := guildId, channelId := channelId, userId := userId,
      userTag := userTag, product := prod,
      payment := { method := none, provider := none, url := none,
                   transactionId := none, paidAmount := none },
      pricing := { original := prod.price, discount := 0, total := prod.price,
                   coupon := none, couponUsedMarked := false } }
  let step : Order × PendingMap :=
    match getPendingCoupon pending channelId with
    | some p =>
      if p.code ≠ "" then
        match findCoupon ledger p.code with
        | some coupon =>
          let r := applyCouponToAmount prod.price (some coupon)
          let order1 :=
            { order0 with
              pricing :=
                { original := prod.price, discount := r.discount,
                  total := r.total,
                  coupon := some
                    { code := coupon.code, type := coupon.type,
                      value := coupon.value, maxUses := coupon.maxUses,
                      uses := coupon.uses },
                  couponUsedMarked := false } }
          (order1, clearPendingCoupon pending channelId)
        | none => (order0, clearPendingCoupon pending channelId)
      else (order0, pending)
    | none => (order0, pending)
  (step.1, step.2, upsertOrder orders step.1)

/-- The coupon modal submit handler: validates the trimmed code via
`findCoupon` and saves the snapshot for the channel's next product;
an invalid code leaves the association store untouched. -/
def couponModalSubmit (pending : PendingMap) (ledger : List Coupon)
    (channelId codeInput : String) : PendingMap :=
  match findCoupon ledger (jsTrim codeInput) with
  | none => pending
  | some c =>
    setPendingCoupon pending channelId
      { code := c.code, type := c.type, value := c.value, maxUses := c.maxUses }

/-! ### Statement helpers and fixtures -/

/-- The pre-rounding discount computed inside `applyCouponToAmount`:
the clamp of a fixed value, the clamped percentage of the amount, and `0`
when no recognised coupon kind is present. -/
def rawDiscount (amountUsd : ℚ) (coupon : Option Coupon) : ℚ :=
  match coupon with
  | none => 0
  | some c =>
    if c.type = "fixed" then jsMax 0 (jsMin amountUsd c.value)
    else if c.type = "percent" then amountUsd * (jsMax 0 (jsMin 100 c.value) / 100)
    else 0

/-- Whether `applyCouponToAmount` recognises the coupon's kind (and hence
takes a rounding branch at all). -/
def couponKindKnown (coupon : Option Coupon) : Bool :=
  match coupon with
  | none => false
  | some c => c.type == "fixed" || c.type == "percent"

/-- One call against the coupon ledger, for stating properties of arbitrary
operation sequences.  `lookup` and `list` are the read-only operations. -/
inductive LedgerOp where
  | add (code type : String) (value : ℚ) (maxUses : Int) (now : String)
  | del (code : String)
  | inc (code : String)
  | lookup (code : String)
  | list

/-- The ledger after one operation (a failed `addCoupon` throws before
writing, so the ledger is unchanged; the read-only operations never write). -/
def applyLedgerOp (arr : List Coupon) : LedgerOp → List Coupon
  | .add code type value maxUses now =>
    match addCoupon arr code type value maxUses now with
    | .ok (_, arr1) => arr1
    | .error _ => arr
  | .del code => (deleteCoupon arr code).2
  | .inc code => (incrementCouponUse arr code).2
  | .lookup _ => arr
  | .list => listCoupons arr

/-- The ledger produced by a sequence of operations, starting from the
empty ledger (a missing `coupons.json` reads back as `[]`). -/
def runOps (ops : List LedgerOp) : List Coupon := ops.foldl applyLedgerOp []

/-- The usage-cap invariant of the claim: every coupon with a positive cap
is at or under its cap. -/
def CapInv (arr : List Coupon) : Prop :=
  ∀ c ∈ arr, 0 < c.maxUses → c.uses ≤ c.maxUses

/-- Fixture: a one-use $1 coupon, before and after one recorded use. -/
def abCoupon : Coupon :=
  { code := "AB", type := "fixed", value := 1, uses := 0, maxUses := 1,
    active := true, createdAt := "" }

/-- Fixture: `abCoupon` after one recorded use. -/
def abCouponUsed : Coupon :=
  { code := "AB", type := "fixed", value := 1, uses := 1, maxUses := 1,
    active := true, createdAt := "" }

/-- Fixture: a lower-case ledger entry, as an externally edited file could
hold it. -/
def save10Coupon : Coupon :=
  { code := "save10", type := "fixed", value := 5, uses := 0, maxUses := 0,
    active := true, createdAt := "" }

/-- Fixture: a fixed coupon worth half a cent. -/
def halfCentCoupon : Coupon :=
  { code := "HB", type := "fixed", value := 1/200, uses := 0, maxUses := 0,
    active := true, createdAt := "" }

/-- Fixture: a usable $5-off coupon. -/
def exCoupon : Coupon :=
  { code := "SAVE", type := "fixed", value := 5, uses := 0, maxUses := 0,
    active := true, createdAt := "" }

/-- Fixture: a pending $100 order carrying the `SAVE` coupon snapshot. -/
def exOrder : Order :=
  { id := "ord1", status := "pending", createdAt := "", guildId := "g",
    channelId := "ch1", userId := "u1", userTag := "u#1",
    product := { id := "p1", name := "Prod", price := 100 },
    payment := { method := none, provider := none, url := none,
                 transactionId := none, paidAmount := none },
    pricing := { original := 100, discount := 5, total := 95,
                 coupon := some { code := "SAVE", type := "fixed", value := 5,
                                  maxUses := 0, uses := 0 },
                 couponUsedMarked := false } }

/-- Fixture: the stores holding just `exOrder` and `exCoupon`. -/
def exState : SysState := { orders := [exOrder], coupons := [exCoupon] }

/-- Fixture: a Cryptomus webhook payload confirming `ord1`. -/
def exPayload : CryptoPayload :=
  { order_id := "ord1", status := "paid", uuid := "tx1", txid := "",
    payment_uuid := "", amount := "100", sign := "" }

/-- Fixture: a payload with no order id. -/
def noOrderPayload : CryptoPayload :=
  { order_id := "", status := "paid", uuid := "", txid := "",
    payment_uuid := "", amount := "", sign := "" }

/-- Fixture: a partial-payment payload for `ord1` with upper-case status. -/
def partialPayload : CryptoPayload :=
  { order_id := "ord1", status := "PAID_PARTIAL", uuid := "tx1", txid := "",
    payment_uuid := "", amount := "100", sign := "" }

/-- Fixture: the coupon snapshot carried by `exOrder`. -/
def exOrderCoupon : OrderCoupon :=
  { code := "SAVE", type := "fixed", value := 5, maxUses := 0, uses := 0 }

/-! ## Theorems -/

theorem jsMax_eq (a b : ℚ) : jsMax a b = max a b := by
  rw [jsMax, max_def]

theorem jsMin_eq (a b : ℚ) : jsMin a b = min a b := by
  rw [jsMin, min_def]

theorem roundHalfAway_intCast (k : Int) : roundHalfAway (k : ℚ) = k := by
  unfold roundHalfAway
  have h2 : ⌊(1 : ℚ)/2⌋ = 0 := by norm_num
  split
  · rw [Int.floor_int_add, h2, add_zero]
  · rw [show -(k : ℚ) + 1/2 = ((-k : Int) : ℚ) + 1/2 by push_cast; ring,
      Int.floor_int_add, h2, add_zero, neg_neg]

theorem round2_eq_self (q : ℚ) (h : (100 * q).den = 1) : round2 q = q := by
  have hq : ((100 * q).num : ℚ) = 100 * q := (Rat.den_eq_one_iff _).mp h
  unfold round2
  rw [show q * 100 = 100 * q by ring, ← hq, roundHalfAway_intCast, hq]
  ring

theorem den_one_sub (p q : ℚ) (hp : p.den = 1) (hq : q.den = 1) :
    (p - q).den = 1 := by
  have hp1 : (p.num : ℚ) = p := (Rat.den_eq_one_iff _).mp hp
  have hq1 : (q.num : ℚ) = q := (Rat.den_eq_one_iff _).mp hq
  have : p - q = ((p.num - q.num : Int) : ℚ) := by push_cast [hp1, hq1]; ring
  rw [this, Rat.den_intCast]

theorem applyCoupon_fixed_eval (amountUsd : ℚ) (c : Coupon)
    (h : c.type = "fixed") :
    applyCouponToAmount amountUsd (some c) =
      { total := round2 (amountUsd - jsMax 0 (jsMin amountUsd c.value)),
        discount := round2 (jsMax 0 (jsMin amountUsd c.value)),
        label := some (c.code ++ " (-$"
          ++ toFixed2 (jsMax 0 (jsMin amountUsd c.value)) ++ ")") } := by
  simp [applyCouponToAmount, h]

theorem applyCoupon_percent_eval (amountUsd : ℚ) (c : Coupon)
    (h : c.type = "percent") :
    applyCouponToAmount amountUsd (some c) =
      { total := round2 (amountUsd - amountUsd * (jsMax 0 (jsMin 100 c.value) / 100)),
        discount := round2 (amountUsd * (jsMax 0 (jsMin 100 c.value) / 100)),
        label := some (c.code ++ " (-"
          ++ toString (jsMax 0 (jsMin 100 c.value)) ++ "%)") } := by
  simp [applyCouponToAmount, h]

/-- C5: the pricing function satisfies the spec's reference cases — a $30
fixed coupon on $100 gives total 70 / discount 30, a 20% coupon on $50 gives
total 40 / discount 10, a $999 fixed coupon on $10 clamps to total 0 /
discount 10, no coupon on $100 gives total 100 / discount 0 — and in
general a fixed coupon discounts by `clamp(value, 0, baseAmount)` and
totals `baseAmount - discount`, while a percent coupon clamps the
percentage to `[0, 100]` (the monetary outputs being the 2-decimal
roundings of those values, per the spec's final rounding step). -/
theorem applyCoupon_reference_and_clamping :
    ((∀ c : Coupon, c.type = "fixed" → c.value = 30 →
        (applyCouponToAmount 100 (some c)).total = 70 ∧
        (applyCouponToAmount 100 (some c)).discount = 30) ∧
      (∀ c : Coupon, c.type = "percent" → c.value = 20 →
        (applyCouponToAmount 50 (some c)).total = 40 ∧
        (applyCouponToAmount 50 (some c)).discount = 10) ∧
      (∀ c : Coupon, c.type = "fixed" → c.value = 999 →
        (applyCouponToAmount 10 (some c)).total = 0 ∧
        (applyCouponToAmount 10 (some c)).discount = 10) ∧
      (∀ amountUsd : ℚ, applyCouponToAmount amountUsd none =
        { total := amountUsd, discount := 0, label := none })) ∧
    (∀ (amountUsd : ℚ) (c : Coupon), c.type = "fixed" →
      (applyCouponToAmount amountUsd (some c)).discount
          = round2 (max 0 (min amountUsd c.value)) ∧
      (applyCouponToAmount amountUsd (some c)).total
          = round2 (amountUsd - max 0 (min amountUsd c.value))) ∧
    (∀ (amountUsd : ℚ) (c : Coupon), c.type = "percent" →
      (applyCouponToAmount amountUsd (some c)).discount
          = round2 (amountUsd * (max 0 (min 100 c.value) / 100)) ∧
      (applyCouponToAmount amountUsd (some c)).total
          = round2 (amountUsd - amountUsd * (max 0 (min 100 c.value) / 100))) := by
  refine ⟨⟨?_, ?_, ?_, ?_⟩, ?_, ?_⟩
  · intro c hty hv
    rw [applyCoupon_fixed_eval 100 c hty, hv]
    constructor
    · show round2 (100 - jsMax 0 (jsMin 100 30)) = 70
      with_unfolding_all decide
    · show round2 (jsMax 0 (jsMin 100 30)) = 30
      with_unfolding_all decide
  · intro c hty hv
    rw [applyCoupon_percent_eval 50 c hty, hv]
    constructor
    · show round2 (50 - 50 * (jsMax 0 (jsMin 100 20) / 100)) = 40
      with_unfolding_all decide
    · show round2 (50 * (jsMax 0 (jsMin 100 20) / 100)) = 10
      with_unfolding_all decide
  · intro c hty hv
    rw [applyCoupon_fixed_eval 10 c hty, hv]
    constructor
    · show round2 (10 - jsMax 0 (jsMin 10 999)) = 0
      with_unfolding_all decide
    · show round2 (jsMax 0 (jsMin 10 999)) = 10
      with_unfolding_all decide
  · intro amountUsd; rfl
  · intro amountUsd c hty
    rw [applyCoupon_fixed_eval amountUsd c hty]
    simp [jsMax_eq, jsMin_eq]
  · intro amountUsd c hty
    rw [applyCoupon_percent_eval amountUsd c hty]
    simp [jsMax_eq, jsMin_eq]

/-- C5 witness: the reference cases instantiated at a concrete coupon. -/
theorem applyCoupon_reference_and_clamping_witness :
    (applyCouponToAmount 100 (some exCoupon)).discount
      = round2 (max 0 (min 100 exCoupon.value)) :=
  (applyCoupon_reference_and_clamping.2.1 100 exCoupon rfl).1

/-- C6 counterexample: on `apply(10, fixed 0.005)` the code rounds the
discount up to `0.01` and the total up to `10`, so
`total = original - discount` fails (`10 ≠ 10 - 0.01`); and on the
no-coupon path `apply(1/3, null)` the total is returned unrounded, so the
outputs are not always rounded to 2 decimal places. -/
theorem pricing_rounding_identity_cex :
    (applyCouponToAmount 10 (some halfCentCoupon)).total = 10 ∧
    (applyCouponToAmount 10 (some halfCentCoupon)).discount = 1/100 ∧
    (10 : ℚ) ≠ 10 - 1/100 ∧
    (applyCouponToAmount (1/3) none).total = 1/3 ∧
    (applyCouponToAmount (1/3) none).total ≠ round2 (1/3) := by
  with_unfolding_all decide

/-- C6 (amended): for every base amount and coupon, the fixed and percent
branches round the discount and the final total half-away-from-zero to 2
decimals at the final step only (`discount = round2 d`,
`total = round2 (amount - d)` for the raw discount `d`), while the
no-coupon/unknown-kind branch returns the base amount unrounded with
discount 0; the raw discount always satisfies `0 ≤ d ≤ amount` for a
non-negative amount, and whenever the base amount and the raw discount are
whole numbers of cents the rounding is the identity, so
`total = original - discount` with `0 ≤ total ≤ original` holds exactly. -/
theorem pricing_rounding_amended (amountUsd : ℚ) (coupon : Option Coupon) :
    (couponKindKnown coupon = false →
      applyCouponToAmount amountUsd coupon =
        { total := amountUsd, discount := 0, label := none }) ∧
    (couponKindKnown coupon = true →
      (applyCouponToAmount amountUsd coupon).discount
          = round2 (rawDiscount amountUsd coupon) ∧
      (applyCouponToAmount amountUsd coupon).total
          = round2 (amountUsd - rawDiscount amountUsd coupon)) ∧
    (0 ≤ amountUsd →
      0 ≤ rawDiscount amountUsd coupon ∧
      rawDiscount amountUsd coupon ≤ amountUsd) ∧
    ((100 * amountUsd).den = 1 → (100 * rawDiscount amountUsd coupon).den = 1 →
      (applyCouponToAmount amountUsd coupon).total
          = amountUsd - (applyCouponToAmount amountUsd coupon).discount ∧
      (0 ≤ amountUsd →
        0 ≤ (applyCouponToAmount amountUsd coupon).total ∧
        (applyCouponToAmount amountUsd coupon).total ≤ amountUsd)) := by
  have hdt : couponKindKnown coupon = true →
      (applyCouponToAmount amountUsd coupon).discount
          = round2 (rawDiscount amountUsd coupon) ∧
      (applyCouponToAmount amountUsd coupon).total
          = round2 (amountUsd - rawDiscount amountUsd coupon) := by
    intro hk
    match coupon with
    | none => simp [couponKindKnown] at hk
    | some c =>
      by_cases hf : c.type = "fixed"
      · rw [applyCoupon_fixed_eval amountUsd c hf]
        simp [rawDiscount, hf]
      · have hp : c.type = "percent" := by
          simpa [couponKindKnown, hf] using hk
        rw [applyCoupon_percent_eval amountUsd c hp]
        simp [rawDiscount, hp, hf]
  have hunknown : couponKindKnown coupon = false →
      applyCouponToAmount amountUsd coupon =
        { total := amountUsd, discount := 0, label := none } := by
    intro hk
    match coupon with
    | none => rfl
    | some c =>
      have hf : ¬ c.type = "fixed" := by
        intro h; simp [couponKindKnown, h] at hk
      have hp : ¬ c.type = "percent" := by
        intro h; simp [couponKindKnown, h] at hk
      simp [applyCouponToAmount, hf, hp]
  have hbounds : 0 ≤ amountUsd →
      0 ≤ rawDiscount amountUsd coupon ∧
      rawDiscount amountUsd coupon ≤ amountUsd := by
    intro ha
    match coupon with
    | none => simpa [rawDiscount] using ha
    | some c =>
      by_cases hf : c.type = "fixed"
      · simp only [rawDiscount, hf, if_pos rfl, jsMax_eq, jsMin_eq]
        exact ⟨le_max_left _ _, max_le ha (min_le_left _ _)⟩
      · by_cases hp : c.type = "percent"
        · simp only [rawDiscount, hf, hp, if_neg hf, if_pos rfl,
            jsMax_eq, jsMin_eq]
          have h0 : (0:ℚ) ≤ max 0 (min 100 c.value) := le_max_left _ _
          have h100 : max 0 (min 100 c.value) ≤ 100 :=
            max_le (by norm_num) (min_le_left _ _)
          constructor
          · exact mul_nonneg ha (div_nonneg h0 (by norm_num))
          · calc amountUsd * (max 0 (min 100 c.value) / 100)
                ≤ amountUsd * 1 := by
                  apply mul_le_mul_of_nonneg_left _ ha
                  rw [div_le_one (by norm_num)]
                  exact h100
              _ = amountUsd := mul_one _
        · simpa [rawDiscount, hf, hp] using ha
  refine ⟨hunknown, hdt, hbounds, ?_⟩
  intro h100a h100d
  by_cases hk : couponKindKnown coupon = true
  · obtain ⟨hdisc, htot⟩ := hdt hk
    have hdd : round2 (rawDiscount amountUsd coupon) = rawDiscount amountUsd coupon :=
      round2_eq_self _ h100d
    have hsub : (100 * (amountUsd - rawDiscount amountUsd coupon)).den = 1 := by
      rw [mul_sub]
      exact den_one_sub _ _ h100a h100d
    have htt : round2 (amountUsd - rawDiscount amountUsd coupon)
        = amountUsd - rawDiscount amountUsd coupon := round2_eq_self _ hsub
    rw [htot, htt, hdisc, hdd]
    refine ⟨rfl, ?_⟩
    intro ha
    obtain ⟨h1, h2⟩ := hbounds ha
    constructor <;> linarith
  · have hk2 : couponKindKnown coupon = false := by
      simpa using hk
    rw [hunknown hk2]
    refine ⟨by simp, ?_⟩
    intro ha
    exact ⟨ha, le_refl _⟩

/-- C6 witness: the amended equation instantiated on a $5 fixed coupon and
a $100 base amount, both on the cent grid. -/
theorem pricing_rounding_amended_witness :
    (applyCouponToAmount 100 (some exCoupon)).total
      = 100 - (applyCouponToAmount 100 (some exCoupon)).discount :=
  ((pricing_rounding_amended 100 (some exCoupon)).2.2.2
    (by with_unfolding_all decide) (by with_unfolding_all decide)).1

/-- C3: `incrementCouponUse` re-validates usability at the moment of
increment: for every ledger and code it returns `false` with the ledger
completely unchanged when the (case-insensitively matched) coupon is
missing, inactive, or usage-exhausted (`maxUses > 0` and
`uses ≥ maxUses`); otherwise it returns `true` and increments exactly that
coupon's `uses` by one, leaving every other entry untouched. -/
theorem incrementCouponUse_revalidates (arr : List Coupon) (code : String) :
    (arr.findIdx? (fun x => jsToUpper x.code == jsToUpper (jsTrim code)) = none →
      incrementCouponUse arr code = (false, arr)) ∧
    (∀ idx c,
      arr.findIdx? (fun x => jsToUpper x.code == jsToUpper (jsTrim code)) = some idx →
      arr[idx]? = some c →
      ((c.active = false ∨ (0 < c.maxUses ∧ c.maxUses ≤ c.uses)) →
        incrementCouponUse arr code = (false, arr)) ∧
      (c.active = true → (0 < c.maxUses → c.uses < c.maxUses) →
        incrementCouponUse arr code =
          (true, arr.set idx { c with uses := c.uses + 1 }))) := by
  constructor
  · intro h
    simp [incrementCouponUse, h]
  · intro idx c hidx hget
    constructor
    · intro hbad
      rcases hbad with hb | hb
      · simp [incrementCouponUse, hidx, hget, hb]
      · cases hca : c.active with
        | false => simp [incrementCouponUse, hidx, hget, hca]
        | true => simp [incrementCouponUse, hidx, hget, hca, hb]
    · intro hact hcap
      have hnc : ¬ (0 < c.maxUses ∧ c.maxUses ≤ c.uses) := by
        rintro ⟨h1, h2⟩
        exact absurd h2 (not_le.mpr (hcap h1))
      simp [incrementCouponUse, hidx, hget, hact, hnc]

/-- C3 witness: a usable one-use coupon is bumped to `uses = 1`, at index 0. -/
theorem incrementCouponUse_revalidates_witness :
    incrementCouponUse [abCoupon] "ab" = (true, [abCouponUsed]) :=
  ((incrementCouponUse_revalidates [abCoupon] "ab").2 0 abCoupon
    (by with_unfolding_all rfl) (by with_unfolding_all rfl)).2 rfl
    (fun _ => Nat.zero_lt_one)

theorem addCoupon_ok_shape {arr : List Coupon} {code type : String}
    {value : ℚ} {maxUses : Int} {now : String} {c : Coupon}
    {arr2 : List Coupon}
    (h : addCoupon arr code type value maxUses now = .ok (c, arr2)) :
    c.code = jsToUpper (jsTrim code) ∧ c.type = type ∧ c.value = value ∧
    c.uses = 0 ∧ c.maxUses = maxUses.toNat ∧ c.active = true ∧
    c.createdAt = now ∧ arr2 = arr ++ [c] := by
  simp only [addCoupon] at h
  split_ifs at h
  all_goals try simp_all
  obtain ⟨hc, harr⟩ := h
  subst hc
  subst harr
  simp

theorem capInv_incrementCouponUse (arr : List Coupon) (code : String)
    (h : CapInv arr) : CapInv (incrementCouponUse arr code).2 := by
  cases hidx : arr.findIdx? (fun x => jsToUpper x.code == jsToUpper (jsTrim code)) with
  | none => simpa [incrementCouponUse, hidx] using h
  | some idx =>
    cases hget : arr[idx]? with
    | none => simpa [incrementCouponUse, hidx, hget] using h
    | some c =>
      by_cases hact : c.active = false
      · simpa [incrementCouponUse, hidx, hget, hact] using h
      · by_cases hcap : 0 < c.maxUses ∧ c.maxUses ≤ c.uses
        · simpa [incrementCouponUse, hidx, hget, hact, hcap] using h
        · have hres : (incrementCouponUse arr code).2
              = arr.set idx { c with uses := c.uses + 1 } := by
            simp [incrementCouponUse, hidx, hget, hact, hcap]
          rw [hres]
          intro x hx hmx
          rcases List.mem_or_eq_of_mem_set hx with hmem | hx2
          · exact h x hmem hmx
          · subst hx2
            simp only at hmx ⊢
            push_neg at hcap
            have := hcap hmx
            omega

theorem capInv_applyLedgerOp (arr : List Coupon) (op : LedgerOp)
    (h : CapInv arr) : CapInv (applyLedgerOp arr op) := by
  cases op with
  | add code type value maxUses now =>
    cases hadd : addCoupon arr code type value maxUses now with
    | error e => simpa only [applyLedgerOp, hadd] using h
    | ok p =>
      obtain ⟨c, arr2⟩ := p
      obtain ⟨-, -, -, hu, -, -, -, harr⟩ := addCoupon_ok_shape hadd
      have hred : applyLedgerOp arr (.add code type value maxUses now) = arr2 := by
        simp only [applyLedgerOp, hadd]
      rw [hred, harr]
      intro x hx hmx
      rcases List.mem_append.mp hx with hmem | hmem
      · exact h x hmem hmx
      · rw [List.mem_singleton] at hmem
        subst hmem
        omega
  | del code =>
    intro x hx hmx
    simp only [applyLedgerOp, deleteCoupon] at hx
    exact h x (List.mem_of_mem_filter hx) hmx
  | inc code => exact capInv_incrementCouponUse arr code h
  | lookup code => exact h
  | list => exact h

/-- C2: the usage-cap invariant — every coupon with `maxUses > 0` has
`uses ≤ maxUses` — holds after any sequence of ledger operations starting
from the empty ledger, and a freshly added coupon always starts at
`uses = 0`. -/
theorem coupon_cap_invariant :
    (∀ (arr : List Coupon) (code type : String) (value : ℚ) (maxUses : Int)
        (now : String) (c : Coupon) (arr2 : List Coupon),
      addCoupon arr code type value maxUses now = .ok (c, arr2) → c.uses = 0) ∧
    (∀ ops : List LedgerOp, CapInv (runOps ops)) := by
  constructor
  · intro arr code type value maxUses now c arr2 h
    exact (addCoupon_ok_shape h).2.2.2.1
  · have main : ∀ (ops : List LedgerOp) (arr : List Coupon),
        CapInv arr → CapInv (ops.foldl applyLedgerOp arr) := by
      intro ops
      induction ops with
      | nil => intro arr h; exact h
      | cons op rest ih =>
        intro arr h
        exact ih _ (capInv_applyLedgerOp arr op h)
    intro ops
    exact main ops [] (by intro x hx hmx; cases hx)

/-- C2 witness: adding a single-use coupon and then recording two uses of
it keeps the ledger inside the cap (the second increment is refused). -/
theorem coupon_cap_invariant_witness :
    abCoupon.uses = 0 ∧
    CapInv (runOps [.add "AB" "fixed" 1 1 "", .inc "AB", .inc "AB"]) :=
  ⟨coupon_cap_invariant.1 [] "AB" "fixed" 1 1 "" abCoupon [abCoupon]
      (by with_unfolding_all rfl),
   coupon_cap_invariant.2 [.add "AB" "fixed" 1 1 "", .inc "AB", .inc "AB"]⟩

theorem addCoupon_ok_cond {arr : List Coupon} {code type : String}
    {value : ℚ} {maxUses : Int} {now : String} {c : Coupon}
    {arr2 : List Coupon}
    (h : addCoupon arr code type value maxUses now = .ok (c, arr2)) :
    validCouponCode (jsToUpper (jsTrim code)) = true ∧
    (∀ x ∈ arr, jsToUpper x.code ≠ jsToUpper (jsTrim code)) ∧
    (type = "fixed" ∨ type = "percent") ∧ 0 < value ∧
    (type = "percent" → value ≤ 100) ∧ 0 ≤ maxUses := by
  simp only [addCoupon] at h
  split_ifs at h with h1 h2 h3 h4 h5 h6 h7
  all_goals cases h
  refine ⟨by simpa using h2, ?_, by tauto, by exact lt_of_not_le h4,
    fun hp => ?_, le_of_not_lt h6⟩
  · intro x hx
    intro heq
    apply h7
    rw [List.any_eq_true]
    exact ⟨x, hx, by simpa using heq⟩
  · by_contra hv
    exact h5 ⟨hp, lt_of_not_le hv⟩

theorem addCoupon_ok_of_cond (arr : List Coupon) (code type : String)
    (value : ℚ) (maxUses : Int) (now : String)
    (hvc : validCouponCode (jsToUpper (jsTrim code)) = true)
    (hdup : ∀ x ∈ arr, jsToUpper x.code ≠ jsToUpper (jsTrim code))
    (hty : type = "fixed" ∨ type = "percent")
    (hval : 0 < value) (hpct : type = "percent" → value ≤ 100)
    (hmu : 0 ≤ maxUses) :
    (addCoupon arr code type value maxUses now).isOk = true := by
  have hcode : ¬ code = "" := by
    intro h0
    subst h0
    rw [show jsToUpper (jsTrim "") = "" from by with_unfolding_all rfl] at hvc
    exact absurd hvc (by with_unfolding_all decide)
  have hnotany :
      ¬ (arr.any (fun x => jsToUpper x.code == jsToUpper (jsTrim code)) = true) := by
    intro hany
    rw [List.any_eq_true] at hany
    obtain ⟨x, hx, hbe⟩ := hany
    exact hdup x hx (by simpa using hbe)
  simp only [addCoupon, if_neg hcode]
  rw [if_neg (by simp [hvc]), if_neg (by tauto), if_neg (not_le.mpr hval),
    if_neg (by rintro ⟨hp, hv⟩; exact absurd hv (not_lt.mpr (hpct hp))),
    if_neg (not_lt.mpr hmu), if_neg hnotany]
  rfl

/-- C7: `addCoupon` throws exactly when the normalized code fails the
2-32 character `[A-Z0-9_-]` rule, a coupon with the same code already
exists case-insensitively, the kind is neither `fixed` nor `percent`, the
value is not positive, a percent value exceeds 100, or `maxUses` is
negative; on success the stored coupon carries the trimmed upper-cased
code with `uses = 0` and `active = true`.  Concretely, `"ab"` is accepted,
`"a"` and `"50%OFF"` are rejected, and `"SAVE10"` is rejected when
`"save10"` is already in the ledger. -/
theorem addCoupon_validation_iff :
    (∀ (arr : List Coupon) (code type : String) (value : ℚ) (maxUses : Int)
        (now : String),
      (∃ e, addCoupon arr code type value maxUses now = .error e) ↔
        (validCouponCode (jsToUpper (jsTrim code)) = false ∨
         (∃ x ∈ arr, jsToUpper x.code = jsToUpper (jsTrim code)) ∨
         (type ≠ "fixed" ∧ type ≠ "percent") ∨
         value ≤ 0 ∨ (type = "percent" ∧ 100 < value) ∨ maxUses < 0)) ∧
    (∀ (arr : List Coupon) (code type : String) (value : ℚ) (maxUses : Int)
        (now : String) (c : Coupon) (arr2 : List Coupon),
      addCoupon arr code type value maxUses now = .ok (c, arr2) →
        c.code = jsToUpper (jsTrim code) ∧ c.uses = 0 ∧ c.active = true) ∧
    (addCoupon [] "ab" "fixed" 5 0 "t").isOk = true ∧
    (∃ e, addCoupon [] "a" "fixed" 5 0 "t" = .error e) ∧
    (∃ e, addCoupon [] "50%OFF" "fixed" 5 0 "t" = .error e) ∧
    (∃ e, addCoupon [save10Coupon] "SAVE10" "fixed" 5 0 "t" = .error e) := by
  refine ⟨?_, ?_, by with_unfolding_all rfl,
    ⟨"Code must be 2-32 chars (A-Z, 0-9, _ or -)", by with_unfolding_all rfl⟩,
    ⟨"Code must be 2-32 chars (A-Z, 0-9, _ or -)", by with_unfolding_all rfl⟩,
    ⟨"Coupon already exists", by with_unfolding_all rfl⟩⟩
  · intro arr code type value maxUses now
    constructor
    · rintro ⟨e, he⟩
      by_contra hcon
      push_neg at hcon
      obtain ⟨hvc, hdup, hty, hval, hpct, hmu⟩ := hcon
      have hok :=
        addCoupon_ok_of_cond arr code type value maxUses now
          (by simpa using hvc) hdup
          (by by_cases hf : type = "fixed"
              · exact Or.inl hf
              · exact Or.inr (hty hf))
          hval (fun hp => le_of_not_lt fun hv => absurd (hpct hp) (by simp [hv]))
          hmu
      rw [he] at hok
      cases hok
    · intro hdisj
      cases hres : addCoupon arr code type value maxUses now with
      | error e => exact ⟨e, rfl⟩
      | ok p =>
        obtain ⟨c, arr2⟩ := p
        obtain ⟨hvc, hdup, hty, hval, hpct, hmu⟩ := addCoupon_ok_cond hres
        rcases hdisj with h | h | h | h | h | h
        · rw [hvc] at h; cases h
        · obtain ⟨x, hx, he⟩ := h
          exact absurd he (hdup x hx)
        · rcases hty with ht | ht
          · exact absurd ht h.1
          · exact absurd ht h.2
        · exact absurd h (not_le.mpr hval)
        · exact absurd h.2 (not_lt.mpr (hpct h.1))
        · exact absurd h (not_lt.mpr hmu)
  · intro arr code type value maxUses now c arr2 h
    obtain ⟨hc, -, -, hu, -, ha, -, -⟩ := addCoupon_ok_shape h
    exact ⟨hc, hu, ha⟩

/-- C7 witness: the validation characterisation applied at a concrete
rejected duplicate (`"SAVE10"` over an existing `"save10"`). -/
theorem addCoupon_validation_iff_witness :
    ∃ e, addCoupon [save10Coupon] "SAVE10" "fixed" 5 0 "t" = .error e :=
  (addCoupon_validation_iff.1 [save10Coupon] "SAVE10" "fixed" 5 0 "t").mpr
    (Or.inr (Or.inl ⟨save10Coupon, List.mem_singleton_self _,
      by with_unfolding_all rfl⟩))

theorem getPendingCoupon_set (m : PendingMap) (channelId : String)
    (p : PendingCoupon) :
    getPendingCoupon (setPendingCoupon m channelId p) channelId = some p := by
  simp [getPendingCoupon, setPendingCoupon]

theorem getPendingCoupon_clear (m : PendingMap) (channelId : String) :
    getPendingCoupon (clearPendingCoupon m channelId) channelId = none := by
  simp [getPendingCoupon, clearPendingCoupon]

/-- C4: submitting a valid coupon `X` and then selecting a product in the
same channel produces an order whose `pricing.coupon.code` is `X` and
clears the channel's pending association, so that selecting a second
product afterwards produces an order with no coupon; moreover product
selection clears the pending association regardless of whether the pending
code still resolves through `findCoupon` at consumption time. -/
theorem pending_coupon_consumed_once :
    (∀ (pending : PendingMap) (ledger : List Coupon) (channelId X : String)
        (c : Coupon) (u1 u2 now guildId userId userTag : String)
        (prod1 prod2 : ProductSnap) (orders : List Order),
      jsTrim X = X → findCoupon ledger X = some c → c.code = X →
      Option.map (fun oc => oc.code)
        ((chooseProd u1 now guildId channelId userId userTag prod1
          (couponModalSubmit pending ledger channelId X) ledger
          orders).1.pricing.coupon) = some X ∧
      getPendingCoupon
        (chooseProd u1 now guildId channelId userId userTag prod1
          (couponModalSubmit pending ledger channelId X) ledger orders).2.1
        channelId = none ∧
      (chooseProd u2 now guildId channelId userId userTag prod2
        (chooseProd u1 now guildId channelId userId userTag prod1
          (couponModalSubmit pending ledger channelId X) ledger orders).2.1
        ledger
        (chooseProd u1 now guildId channelId userId userTag prod1
          (couponModalSubmit pending ledger channelId X) ledger
          orders).2.2).1.pricing.coupon = none) ∧
    (∀ (pending : PendingMap) (ledger : List Coupon) (channelId : String)
        (p : PendingCoupon) (u now guildId userId userTag : String)
        (prod : ProductSnap) (orders : List Order),
      getPendingCoupon pending channelId = some p → p.code ≠ "" →
      getPendingCoupon
        (chooseProd u now guildId channelId userId userTag prod pending
          ledger orders).2.1 channelId = none) := by
  constructor
  · intro pending ledger channelId X c u1 u2 now guildId userId userTag
      prod1 prod2 orders htrim hfind hcode
    have hX : X ≠ "" := by
      intro h0
      rw [h0] at hfind
      simp [findCoupon] at hfind
    have hne : c.code ≠ "" := by rw [hcode]; exact hX
    have hget1 : getPendingCoupon (couponModalSubmit pending ledger channelId X)
        channelId = some ⟨c.code, c.type, c.value, c.maxUses⟩ := by
      rw [show couponModalSubmit pending ledger channelId X
          = setPendingCoupon pending channelId ⟨c.code, c.type, c.value, c.maxUses⟩ from by
        simp [couponModalSubmit, htrim, hfind]]
      exact getPendingCoupon_set _ _ _
    have hfind2 : findCoupon ledger c.code = some c := by rw [hcode]; exact hfind
    refine ⟨?_, ?_, ?_⟩
    · simp [chooseProd, hget1, hne, hfind2, hcode, hX, hfind]
    · simp [chooseProd, hget1, hne, hfind2, hcode, hX, hfind,
        getPendingCoupon_clear]
    · set p2 := (chooseProd u1 now guildId channelId userId userTag prod1
        (couponModalSubmit pending ledger channelId X) ledger orders).2.1
        with hp2
      have hb : getPendingCoupon p2 channelId = none := by
        rw [hp2]
        simp [chooseProd, hget1, hne, hfind2, hcode, hX, hfind,
          getPendingCoupon_clear]
      simp [chooseProd, hb]
  · intro pending ledger channelId p u now guildId userId userTag prod
      orders hget hne
    cases hf : findCoupon ledger p.code with
    | none => simp [chooseProd, hget, hne, hf, getPendingCoupon_clear]
    | some c2 => simp [chooseProd, hget, hne, hf, getPendingCoupon_clear]

/-- C4 witness: submitting `SAVE` and choosing a product attaches `SAVE`
to the order. -/
theorem pending_coupon_consumed_once_witness :
    Option.map (fun oc => oc.code)
      ((chooseProd "o1" "" "g" "ch" "u" "u#1" ⟨"p1", "P", 100⟩
        (couponModalSubmit (fun _ => none) [exCoupon] "ch" "SAVE")
        [exCoupon] []).1.pricing.coupon) = some "SAVE" :=
  (pending_coupon_consumed_once.1 (fun _ => none) [exCoupon] "ch" "SAVE"
    exCoupon "o1" "o2" "" "g" "u" "u#1" ⟨"p1", "P", 100⟩ ⟨"p2", "Q", 50⟩ []
    (by with_unfolding_all rfl) (by with_unfolding_all rfl) rfl).1

theorem find?_map_replace (orders : List Order) (o : Order)
    (h : orders.any (fun x => x.id == o.id) = true) :
    (orders.map (fun x => if x.id = o.id then o else x)).find?
      (fun x => x.id == o.id) = some o := by
  induction orders with
  | nil => cases h
  | cons a l ih =>
    by_cases ha : a.id = o.id
    · simp [ha]
    · rw [List.any_cons] at h
      have h2 : l.any (fun x => x.id == o.id) = true := by
        simpa [ha] using h
      rw [List.map_cons, List.find?_cons_of_neg _ (by simp [ha])]
      exact ih h2

theorem getOrderById_upsert_self (orders : List Order) (o : Order) :
    getOrderById (upsertOrder orders o) o.id = some o := by
  unfold upsertOrder getOrderById
  by_cases h : orders.any (fun x => x.id == o.id) = true
  · rw [if_pos h]
    exact find?_map_replace orders o h
  · rw [if_neg h, List.find?_append]
    have hnone : orders.find? (fun x => x.id == o.id) = none := by
      rw [List.find?_eq_none]
      intro x hx hbe
      exact h (List.any_eq_true.mpr ⟨x, hx, hbe⟩)
    rw [hnone]
    simp

theorem getOrderById_id {orders : List Order} {oid : String} {o : Order}
    (h : getOrderById orders oid = some o) : o.id = oid := by
  have := List.find?_some h
  simpa using this

theorem confirmPaid_unknown (st : SysState) (oid : String) (patch : PayPatch)
    (h : getOrderById st.orders oid = none) :
    confirmPaid st oid patch = (st, false) := by
  simp [confirmPaid, markPaid, h]

theorem confirmPaid_already_paid (st : SysState) (oid : String)
    (patch : PayPatch) (o : Order) (ho : getOrderById st.orders oid = some o)
    (hp : o.status = "paid")
    (hm : ¬ (couponCodeOf o ≠ "" ∧ o.pricing.couponUsedMarked = false)) :
    confirmPaid st oid patch = (st, true) := by
  simp [confirmPaid, markPaid, ho, hp, hm]

theorem confirmPaid_pending_spec (st : SysState) (oid : String)
    (patch : PayPatch) (o : Order)
    (ho : getOrderById st.orders oid = some o) (hnp : ¬ o.status = "paid") :
    (confirmPaid st oid patch).2 = true ∧
    (∃ o2, getOrderById (confirmPaid st oid patch).1.orders oid = some o2 ∧
      o2.status = "paid" ∧
      ¬ (couponCodeOf o2 ≠ "" ∧ o2.pricing.couponUsedMarked = false)) ∧
    ((couponCodeOf o ≠ "" ∧ o.pricing.couponUsedMarked = false) →
      (confirmPaid st oid patch).1.coupons
        = (incrementCouponUse st.coupons (couponCodeOf o)).2) ∧
    (¬ (couponCodeOf o ≠ "" ∧ o.pricing.couponUsedMarked = false) →
      (confirmPaid st oid patch).1.coupons = st.coupons) := by
  have hid : o.id = oid := getOrderById_id ho
  have hm1 : markPaid st.orders oid patch =
      (some { o with
          status := "paid",
          payment := { o.payment with
            method := some patch.method, provider := some patch.provider,
            transactionId := patch.transactionId,
            paidAmount := patch.paidAmount } },
        upsertOrder st.orders { o with
          status := "paid",
          payment := { o.payment with
            method := some patch.method, provider := some patch.provider,
            transactionId := patch.transactionId,
            paidAmount := patch.paidAmount } }) := by
    simp [markPaid, ho, hnp]
  by_cases hc : couponCodeOf o ≠ "" ∧ o.pricing.couponUsedMarked = false
  · have hres : confirmPaid st oid patch =
        ({ orders := upsertOrder
              (upsertOrder st.orders { o with
                status := "paid",
                payment := { o.payment with
                  method := some patch.method, provider := some patch.provider,
                  transactionId := patch.transactionId,
                  paidAmount := patch.paidAmount } })
              { o with
                status := "paid",
                payment := { o.payment with
                  method := some patch.method, provider := some patch.provider,
                  transactionId := patch.transactionId,
                  paidAmount := patch.paidAmount },
                pricing := { o.pricing with couponUsedMarked := true } },
            coupons := (incrementCouponUse st.coupons (couponCodeOf o)).2 },
          true) := by
      simp only [confirmPaid, hm1]
      rw [if_pos (by exact hc)]
      rfl
    rw [hres]
    refine ⟨rfl, ⟨{ o with
        status := "paid",
        payment := { o.payment with
          method := some patch.method, provider := some patch.provider,
          transactionId := patch.transactionId,
          paidAmount := patch.paidAmount },
        pricing := { o.pricing with couponUsedMarked := true } }, ?_, rfl, ?_⟩,
      fun _ => rfl, fun hn => absurd hc hn⟩
    · have hid2 : ({ o with
          status := "paid",
          payment := { o.payment with
            method := some patch.method, provider := some patch.provider,
            transactionId := patch.transactionId,
            paidAmount := patch.paidAmount },
          pricing := { o.pricing with couponUsedMarked := true } } : Order).id
            = oid := hid
      rw [show oid = ({ o with
          status := "paid",
          payment := { o.payment with
            method := some patch.method, provider := some patch.provider,
            transactionId := patch.transactionId,
            paidAmount := patch.paidAmount },
          pricing := { o.pricing with couponUsedMarked := true } } : Order).id
          from hid2.symm]
      exact getOrderById_upsert_self _ _
    · simp
  · have hres : confirmPaid st oid patch =
        ({ st with orders := upsertOrder st.orders { o with
            status := "paid",
            payment := { o.payment with
              method := some patch.method, provider := some patch.provider,
              transactionId := patch.transactionId,
              paidAmount := patch.paidAmount } } }, true) := by
      simp only [confirmPaid, hm1]
      rw [if_neg (by exact hc)]
    rw [hres]
    refine ⟨rfl, ⟨{ o with
        status := "paid",
        payment := { o.payment with
          method := some patch.method, provider := some patch.provider,
          transactionId := patch.transactionId,
          paidAmount := patch.paidAmount } }, ?_, rfl, ?_⟩,
      fun hcc => absurd hcc hc, fun _ => rfl⟩
    · rw [show oid = ({ o with
          status := "paid",
          payment := { o.payment with
            method := some patch.method, provider := some patch.provider,
            transactionId := patch.transactionId,
            paidAmount := patch.paidAmount } } : Order).id from hid.symm]
      exact getOrderById_upsert_self _ _
    · exact hc

theorem cryptomusHandler_eq (trust : CryptoPayload → Bool) (p : CryptoPayload)
    (st : SysState) (ht : trust p = true) (hid : p.order_id ≠ "")
    (hs : paidStatuses.contains (jsToLower p.status) = true) :
    cryptomusHandler trust p st =
      (⟨200, "ok"⟩, confirmPaid st p.order_id (cryptoPatch p)) := by
  unfold cryptomusHandler
  rw [if_neg (by simp [ht]), if_neg hid, if_neg (by rw [hs]; simp)]

theorem stripeHandler_eq (ev : StripeEvent) (st : SysState)
    (htype : ev.type = "checkout.session.completed")
    (hid : ev.session.orderId ≠ "") :
    stripeHandler (.ok ev) st =
      (⟨200, "ok"⟩, confirmPaid st ev.session.orderId (stripePatch ev.session)) := by
  simp only [stripeHandler]
  rw [if_pos ⟨htype, hid⟩]

/-- C8: every webhook request that passes the authenticity check is
acknowledged with HTTP 200 and no exception escapes: under a passing trust
check the Cryptomus handler answers "no order" for a missing order id,
"not paid" for an unrecognised status, and "ok" for an unknown order, each
with no state change and no notification; the Stripe handler answers 200
on every input, and when event verification/parsing throws, the catch
block still answers "ok" with no state change. -/
theorem webhook_acknowledges_always :
    (∀ (trust : CryptoPayload → Bool) (p : CryptoPayload) (st : SysState),
      trust p = true →
      (cryptomusHandler trust p st).1.status = 200 ∧
      (p.order_id = "" →
        cryptomusHandler trust p st = (⟨200, "no order"⟩, st, false)) ∧
      (p.order_id ≠ "" → paidStatuses.contains (jsToLower p.status) = false →
        cryptomusHandler trust p st = (⟨200, "not paid"⟩, st, false)) ∧
      (p.order_id ≠ "" → paidStatuses.contains (jsToLower p.status) = true →
        getOrderById st.orders p.order_id = none →
        cryptomusHandler trust p st = (⟨200, "ok"⟩, st, false))) ∧
    (∀ (event : Except String StripeEvent) (st : SysState),
      (stripeHandler event st).1.status = 200) ∧
    (∀ (e : String) (st : SysState),
      stripeHandler (.error e) st = (⟨200, "ok"⟩, st, false)) := by
  refine ⟨?_, ?_, fun e st => rfl⟩
  · intro trust p st ht
    refine ⟨?_, ?_, ?_, ?_⟩
    · unfold cryptomusHandler
      rw [if_neg (by simp [ht])]
      split_ifs <;> rfl
    · intro h1
      unfold cryptomusHandler
      rw [if_neg (by simp [ht]), if_pos h1]
    · intro hne h2
      unfold cryptomusHandler
      rw [if_neg (by simp [ht]), if_neg hne, if_pos h2]
    · intro hne hs hnone
      rw [cryptomusHandler_eq trust p st ht hne hs,
        confirmPaid_unknown st p.order_id (cryptoPatch p) hnone]
  · intro event st
    cases event with
    | error e => rfl
    | ok ev =>
      simp only [stripeHandler]
      split_ifs <;> rfl

/-- C8 witness: a trusted payload with no order id is acknowledged with
"no order" and changes nothing. -/
theorem webhook_acknowledges_always_witness :
    cryptomusHandler (fun _ => true) noOrderPayload exState
      = (⟨200, "no order"⟩, exState, false) :=
  ((webhook_acknowledges_always.1 (fun _ => true) noOrderPayload exState
    rfl).2.1) rfl

/-- C9: when `CRYPTOMUS_API_KEY` is unset or the empty string,
`isCryptomusWebhookTrusted` returns `true` for every request — including a
request carrying no signature — so the Cryptomus webhook handler behaves
exactly as if the authenticity gate always passed: every inbound payload
is processed. -/
theorem cryptomus_trust_vacuous_without_key :
    ∀ (digest : CryptoPayload → String → String) (p : CryptoPayload)
      (st : SysState),
      isCryptomusWebhookTrusted digest none p = true ∧
      isCryptomusWebhookTrusted digest (some "") p = true ∧
      isCryptomusWebhookTrusted digest none { p with sign := "" } = true ∧
      isCryptomusWebhookTrusted digest (some "") { p with sign := "" } = true ∧
      cryptomusHandler (isCryptomusWebhookTrusted digest none) p st
        = cryptomusHandler (fun _ => true) p st ∧
      cryptomusHandler (isCryptomusWebhookTrusted digest (some "")) p st
        = cryptomusHandler (fun _ => true) p st := by
  intro digest p st
  refine ⟨rfl, by simp [isCryptomusWebhookTrusted], rfl,
    by simp [isCryptomusWebhookTrusted], rfl, ?_⟩
  unfold cryptomusHandler
  rw [show isCryptomusWebhookTrusted digest (some "") p = true from
    by simp [isCryptomusWebhookTrusted]]

/-- C10: the Cryptomus handler treats the lower-cased statuses `paid`,
`paid_over` and `paid_partial` — and exactly those — as confirmed payment:
for such a status (trusted request, non-empty order id) it runs the shared
confirmation block, so a `paid_partial` payload fully confirms a pending
order (marks it paid, records the attached coupon's usage, and triggers the
paid notification), while any other status is answered "not paid" with no
state change and no notification. -/
theorem cryptomus_paid_status_semantics :
    paidStatuses = ["paid", "paid_over", "paid_partial"] ∧
    (∀ (trust : CryptoPayload → Bool) (p : CryptoPayload) (st : SysState),
      trust p = true → p.order_id ≠ "" →
      paidStatuses.contains (jsToLower p.status) = true →
      cryptomusHandler trust p st =
        (⟨200, "ok"⟩, confirmPaid st p.order_id (cryptoPatch p))) ∧
    (∀ (trust : CryptoPayload → Bool) (p : CryptoPayload) (st : SysState),
      trust p = true → p.order_id ≠ "" →
      paidStatuses.contains (jsToLower p.status) = false →
      cryptomusHandler trust p st = (⟨200, "not paid"⟩, st, false)) ∧
    (∀ (trust : CryptoPayload → Bool) (p : CryptoPayload) (st : SysState)
        (o : Order) (oc : OrderCoupon),
      trust p = true → p.order_id ≠ "" →
      jsToLower p.status = "paid_partial" →
      getOrderById st.orders p.order_id = some o → ¬ o.status = "paid" →
      o.pricing.coupon = some oc → oc.code ≠ "" →
      o.pricing.couponUsedMarked = false →
      (cryptomusHandler trust p st).2.2 = true ∧
      (∃ o2, getOrderById (cryptomusHandler trust p st).2.1.orders p.order_id
          = some o2 ∧ o2.status = "paid") ∧
      (cryptomusHandler trust p st).2.1.coupons
        = (incrementCouponUse st.coupons oc.code).2) := by
  refine ⟨rfl, ?_, ?_, ?_⟩
  · intro trust p st ht hne hs
    exact cryptomusHandler_eq trust p st ht hne hs
  · intro trust p st ht hne hs
    unfold cryptomusHandler
    rw [if_neg (by simp [ht]), if_neg hne, if_pos hs]
  · intro trust p st o oc ht hne hpp ho hnp hoc hocne hmk
    have hs : paidStatuses.contains (jsToLower p.status) = true := by
      rw [hpp]; rfl
    have hcc : couponCodeOf o = oc.code := by simp [couponCodeOf, hoc]
    have hcond : couponCodeOf o ≠ "" ∧ o.pricing.couponUsedMarked = false := by
      rw [hcc]; exact ⟨hocne, hmk⟩
    obtain ⟨hn1, ⟨o2, ho2, hpaid2, -⟩, hcoup, -⟩ :=
      confirmPaid_pending_spec st p.order_id (cryptoPatch p) o ho hnp
    rw [cryptomusHandler_eq trust p st ht hne hs]
    exact ⟨hn1, ⟨o2, ho2, hpaid2⟩, by rw [← hcc]; exact hcoup hcond⟩

/-- C10 witness: a trusted `paid_partial` payload for the pending fixture
order notifies and marks it paid. -/
theorem cryptomus_paid_status_semantics_witness :
    (cryptomusHandler (fun _ => true) partialPayload exState).2.2 = true :=
  (cryptomus_paid_status_semantics.2.2.2 (fun _ => true) partialPayload
    exState exOrder exOrderCoupon
    rfl (by with_unfolding_all decide) (by with_unfolding_all rfl)
    (by with_unfolding_all rfl) (by with_unfolding_all decide)
    (by with_unfolding_all rfl) (by with_unfolding_all decide)
    (by with_unfolding_all rfl)).1

/-- C1 counterexample: delivering the identical Cryptomus confirmation for
`ord1` a second time leaves the order store and coupon ledger exactly as
after the first delivery, but the paid-notification fires on the duplicate
as well — `markPaid` returns the already-paid order and the handler
notifies whenever an order is returned — contradicting "triggered only on
the first, genuine pending-to-paid transition, never on the duplicate". -/
theorem duplicate_webhook_renotifies_cex :
    (cryptomusHandler (fun _ => true) exPayload
        (cryptomusHandler (fun _ => true) exPayload exState).2.1).2.1
      = (cryptomusHandler (fun _ => true) exPayload exState).2.1 ∧
    (cryptomusHandler (fun _ => true) exPayload exState).2.2 = true ∧
    (cryptomusHandler (fun _ => true) exPayload
        (cryptomusHandler (fun _ => true) exPayload exState).2.1).2.2
      = true := by
  refine ⟨?_, ?_, ?_⟩ <;> with_unfolding_all decide

/-- C1 (amended): payment confirmation is idempotent per order on the
stores — after a first confirmation of a pending order, a duplicate
webhook for the same order id (identical or different transaction id)
leaves the order store and the coupon ledger in exactly the state produced
by the first confirmation and is acknowledged "ok" — but the downstream
paid-notification is triggered on the duplicate delivery as well, not only
on the first transition, for both the Cryptomus and the Stripe handler
(`markPaid` returns the existing order unchanged when it is already paid,
and each handler notifies whenever an order is returned). -/
theorem duplicate_webhook_state_noop_renotify :
    (∀ (trust : CryptoPayload → Bool) (p1 p2 : CryptoPayload) (st : SysState)
        (o : Order),
      trust p1 = true → trust p2 = true → p2.order_id = p1.order_id →
      p1.order_id ≠ "" →
      paidStatuses.contains (jsToLower p1.status) = true →
      paidStatuses.contains (jsToLower p2.status) = true →
      getOrderById st.orders p1.order_id = some o → ¬ o.status = "paid" →
      (cryptomusHandler trust p2 (cryptomusHandler trust p1 st).2.1).2.1
        = (cryptomusHandler trust p1 st).2.1 ∧
      (cryptomusHandler trust p1 st).2.2 = true ∧
      (cryptomusHandler trust p2 (cryptomusHandler trust p1 st).2.1).2.2
        = true ∧
      (cryptomusHandler trust p2 (cryptomusHandler trust p1 st).2.1).1
        = ⟨200, "ok"⟩) ∧
    (∀ (ev : StripeEvent) (st : SysState) (o : Order),
      ev.type = "checkout.session.completed" → ev.session.orderId ≠ "" →
      getOrderById st.orders ev.session.orderId = some o →
      o.status = "paid" →
      ¬ (couponCodeOf o ≠ "" ∧ o.pricing.couponUsedMarked = false) →
      stripeHandler (.ok ev) st = (⟨200, "ok"⟩, st, true)) := by
  constructor
  · intro trust p1 p2 st o ht1 ht2 hsame hid hs1 hs2 ho hnp
    have h1 := cryptomusHandler_eq trust p1 st ht1 hid hs1
    obtain ⟨hn1, ⟨o2, ho2, hpaid2, hm2⟩, -, -⟩ :=
      confirmPaid_pending_spec st p1.order_id (cryptoPatch p1) o ho hnp
    have hst1 : (cryptomusHandler trust p1 st).2.1
        = (confirmPaid st p1.order_id (cryptoPatch p1)).1 := by rw [h1]
    have hdup := confirmPaid_already_paid
      (confirmPaid st p1.order_id (cryptoPatch p1)).1 p2.order_id
      (cryptoPatch p2) o2 (by rw [hsame]; exact ho2) hpaid2 hm2
    have h2 := cryptomusHandler_eq trust p2
      (cryptomusHandler trust p1 st).2.1 ht2 (by rw [hsame]; exact hid) hs2
    refine ⟨?_, ?_, ?_, ?_⟩
    · rw [h2, hst1, hdup]
    · rw [h1]; exact hn1
    · rw [h2, hst1, hdup]
    · rw [h2]
  · intro ev st o htype hid ho hpaid hm
    rw [stripeHandler_eq ev st htype hid,
      confirmPaid_already_paid st ev.session.orderId (stripePatch ev.session)
        o ho hpaid hm]

/-- C1 witness: the amended statement instantiated on the fixture order and
two identical Cryptomus deliveries. -/
theorem duplicate_webhook_state_noop_renotify_witness :
    (cryptomusHandler (fun _ => true) exPayload
        (cryptomusHandler (fun _ => true) exPayload exState).2.1).2.1
      = (cryptomusHandler (fun _ => true) exPayload exState).2.1 :=
  (duplicate_webhook_state_noop_renotify.1 (fun _ => true) exPayload
    exPayload exState exOrder rfl rfl rfl (by with_unfolding_all decide)
    (by with_unfolding_all rfl) (by with_unfolding_all rfl)
    (by with_unfolding_all rfl) (by with_unfolding_all decide)).1

end Crystal
